import Mathlib

/-!
Verification development for the work_notifier repository.

This file models, as a shallow embedding, the serverless query API of the
repository (the current query endpoint with its in-memory sort over the full
filtered candidate set, `parseFacebookTimestamp`, the single-post lookup
endpoint) together with the dashboard's keyword-fallback category classifier.
Instants are modelled as milliseconds since the Unix epoch (integers), as in
JavaScript `Date.getTime()`; the implicit `new Date()` of the source becomes
an explicit `now : Int` argument, and the local timezone is taken as UTC so
that calendar construction and epoch arithmetic agree. A JavaScript time
value is an `Option Int`, with `none` standing for the NaN time value of an
Invalid Date — which the source can produce, because its month table is a
plain object literal whose bracket lookup also reaches the members inherited
from `Object.prototype`.
-/

namespace WorkNotifier

/-! ## Character classes and JS-style helpers -/

/-- The decimal digit characters, as used by the regex class `\d`. -/
def isDig (c : Char) : Bool := 48 ≤ c.toNat && c.toNat ≤ 57

/-- Whitespace characters relevant to the scraped data, for the regex class
`\s` and for `parseInt`'s leading trim. -/
def isWsC (c : Char) : Bool := c = ' ' || c = '\t' || c = '\n' || c = '\r'

/-- Word characters, for the regex class `\w` (ASCII letters, digits, `_`). -/
def isWordC (c : Char) : Bool :=
  isDig c || (65 ≤ c.toNat && c.toNat ≤ 90) || (97 ≤ c.toNat && c.toNat ≤ 122) || c = '_'

/-- Lower-casing of a single character as performed by JavaScript
`toLowerCase`, on the character range occurring in this repository's data:
ASCII letters plus the Norwegian letters Æ, Ø, Å used in the keyword tables. -/
def jsLowerChar (c : Char) : Char :=
  if 65 ≤ c.toNat && c.toNat ≤ 90 then Char.ofNat (c.toNat + 32)
  else if c = 'Æ' then 'æ'
  else if c = 'Ø' then 'ø'
  else if c = 'Å' then 'å'
  else c

/-- Lower-casing of a character list (JS `toLowerCase`). -/
def lowerL (s : List Char) : List Char := s.map jsLowerChar

/-- Case-insensitive character comparison, as under the regex `/i` flag. -/
def ciEq (a b : Char) : Bool := jsLowerChar a = jsLowerChar b

/-- Numeric value of a digit character. -/
def digitVal (c : Char) : Nat := c.toNat - 48

/-- Value of a list of decimal digit characters (most significant first). -/
def valDigits (ds : List Char) : Nat := ds.foldl (fun a c => a * 10 + digitVal c) 0

/-- Maximal leading run of decimal digits: returns the run and the rest. -/
def digitRun : List Char → List Char × List Char
  | [] => ([], [])
  | c :: t =>
    if isDig c then
      let p := digitRun t
      (c :: p.1, p.2)
    else ([], c :: t)

/-- Maximal leading whitespace run. -/
def wsRun : List Char → List Char × List Char
  | [] => ([], [])
  | c :: t =>
    if isWsC c then
      let p := wsRun t
      (c :: p.1, p.2)
    else ([], c :: t)

/-- Maximal leading run of word characters. -/
def wordRun : List Char → List Char × List Char
  | [] => ([], [])
  | c :: t =>
    if isWordC c then
      let p := wordRun t
      (c :: p.1, p.2)
    else ([], c :: t)

/-- Regex `(\d+)`: at least one digit, maximal munch; value and rest. -/
def takeDigits (s : List Char) : Option (Nat × List Char) :=
  if (digitRun s).1 = [] then none else some (valDigits (digitRun s).1, (digitRun s).2)

/-- Regex `\s+`: at least one whitespace character. -/
def takeWs (s : List Char) : Option (List Char) :=
  if (wsRun s).1 = [] then none else some (wsRun s).2

/-- Regex `(\w+)`: at least one word character, maximal munch. -/
def takeWord (s : List Char) : Option (List Char × List Char) :=
  if (wordRun s).1 = [] then none else some ((wordRun s).1, (wordRun s).2)

/-- Regex `(\d{4})`: exactly four digits. -/
def take4Digits (s : List Char) : Option (Nat × List Char) :=
  match s with
  | c1 :: c2 :: c3 :: c4 :: r =>
    if isDig c1 && isDig c2 && isDig c3 && isDig c4 then
      some (digitVal c1 * 1000 + digitVal c2 * 100 + digitVal c3 * 10 + digitVal c4, r)
    else none
  | _ => none

/-- Case-sensitive literal match: strip `lit` from the front of the input. -/
def stripLit : List Char → List Char → Option (List Char)
  | [], s => some s
  | _ :: _, [] => none
  | p :: pt, c :: ct => if p = c then stripLit pt ct else none

/-- Case-insensitive literal match (regex `/i` flag). -/
def stripCI : List Char → List Char → Option (List Char)
  | [], s => some s
  | _ :: _, [] => none
  | p :: pt, c :: ct => if ciEq p c then stripCI pt ct else none

/-- First alternative of a case-insensitive alternation that strips. -/
def firstStripCI : List (List Char) → List Char → Option (List Char)
  | [], _ => none
  | n :: ns, s =>
    match stripCI n s with
    | some r => some r
    | none => firstStripCI ns s

/-! ## JS `parseInt` -/

/-- Drop leading whitespace, as `parseInt` does. -/
def trimL : List Char → List Char
  | [] => []
  | c :: t => if isWsC c then trimL t else c :: t

/-- Value of a hexadecimal digit character, if any. -/
def hexVal (c : Char) : Option Nat :=
  if 48 ≤ c.toNat && c.toNat ≤ 57 then some (c.toNat - 48)
  else if 97 ≤ c.toNat && c.toNat ≤ 102 then some (c.toNat - 87)
  else if 65 ≤ c.toNat && c.toNat ≤ 70 then some (c.toNat - 55)
  else none

/-- Maximal leading run of hex digits with its value. -/
def hexRun : List Char → List Nat × List Char
  | [] => ([], [])
  | c :: t =>
    match hexVal c with
    | some v =>
      let p := hexRun t
      (v :: p.1, p.2)
    | none => ([], c :: t)

/-- Decimal magnitude part of `parseInt`: maximal digit run; `none` = NaN. -/
def decPart (s : List Char) : Option Nat :=
  if (digitRun s).1 = [] then none else some (valDigits (digitRun s).1)

/-- Unsigned magnitude part of `parseInt`, including the `0x` hex form. -/
def natPart (s : List Char) : Option Nat :=
  match s with
  | '0' :: c :: r =>
    if c = 'x' || c = 'X' then
      if (hexRun r).1 = [] then none
      else some ((hexRun r).1.foldl (fun a v => a * 16 + v) 0)
    else decPart ('0' :: c :: r)
  | t => decPart t

/-- JavaScript `parseInt(s)` (radix 10 or `0x` hex): leading whitespace is
skipped, an optional sign is read, the maximal digit run is converted and
trailing garbage is ignored; `none` models `NaN`. -/
def jsParseIntL (s : List Char) : Option Int :=
  match trimL s with
  | '+' :: t => (natPart t).map (fun n => (n : Int))
  | '-' :: t => (natPart t).map (fun n => -(n : Int))
  | t => (natPart t).map (fun n => (n : Int))

/-- The character of a decimal digit value (values ≥ 9 give '9'). -/
def digChar (n : Nat) : Char :=
  match n with
  | 0 => '0' | 1 => '1' | 2 => '2' | 3 => '3' | 4 => '4'
  | 5 => '5' | 6 => '6' | 7 => '7' | 8 => '8' | _ => '9'

/-- A four-digit zero-padded decimal numeral for `i ≤ 9999`, used to denote
concrete integer query parameters. -/
def pad4 (i : Nat) : String :=
  ⟨[digChar (i / 1000 % 10), digChar (i / 100 % 10),
    digChar (i / 10 % 10), digChar (i % 10)]⟩

/-! ## Calendar arithmetic (proleptic Gregorian, UTC)

These model the JavaScript `Date` calendar: `daysFromCivil` and
`civilFromDays` are the standard conversions between a civil date and a count
of days since 1970-01-01, with day (and hour/minute) overflow normalising by
plain arithmetic, exactly as `new Date(y, m, d, hh, mm)` normalises
out-of-range components. -/

/-- Milliseconds per day. -/
def dayMs : Int := 86400000

/-- Days from 1970-01-01 to the civil date `(y, m, d)`, `m` being 1..12.
`d` may be any integer; out-of-range days normalise by day arithmetic,
matching JS `Date` component overflow. -/
def daysFromCivil (y m d : Int) : Int :=
  let y2 := if m ≤ 2 then y - 1 else y
  let era := Int.fdiv y2 400
  let yoe := y2 - era * 400
  let mp := if m ≤ 2 then m + 9 else m - 3
  let doy := (153 * mp + 2) / 5 + d - 1
  let doe := yoe * 365 + yoe / 4 - yoe / 100 + doy
  era * 146097 + doe - 719468

/-- Civil date `(year, month 1..12, day 1..31)` of a day count. -/
def civilFromDays (z0 : Int) : Int × Int × Int :=
  let z := z0 + 719468
  let era := Int.fdiv z 146097
  let doe := z - era * 146097
  let yoe := (doe - doe / 1460 + doe / 36524 - doe / 146096) / 365
  let y := yoe + era * 400
  let doy := doe - (365 * yoe + yoe / 4 - yoe / 100)
  let mp := (5 * doy + 2) / 153
  let d := doy - (153 * mp + 2) / 5 + 1
  let m := if mp < 10 then mp + 3 else mp - 9
  (if m ≤ 2 then y + 1 else y, m, d)

/-- Epoch milliseconds of `new Date(y, mIdx, d, h, mi)` with the month as a
0-based index, before the two-digit-year adjustment. -/
def msOfYMD (y mIdx d h mi : Int) : Int :=
  daysFromCivil y (mIdx + 1) d * dayMs + h * 3600000 + mi * 60000

/-- The `new Date(year, ...)` constructor quirk: integer years 0..99 denote
1900..1999. -/
def adjY (y : Int) : Int := if 0 ≤ y && y ≤ 99 then y + 1900 else y

/-- The civil date of an instant (the `getFullYear`/`getMonth`/`getDate`
components, month 1..12). -/
def civilOfMs (ms : Int) : Int × Int × Int := civilFromDays (Int.fdiv ms dayMs)

/-- `getFullYear()` of an instant. -/
def yearOfMs (ms : Int) : Int := (civilOfMs ms).1

/-- Milliseconds elapsed since local midnight of an instant. -/
def timeOfDayMs (ms : Int) : Int := ms - dayMs * Int.fdiv ms dayMs

/-- JS `setFullYear(y)`: keep the (already normalised) month, day and time of
day of the instant, replace the year, renormalising date overflow. -/
def setYearMs (ms y : Int) : Int :=
  let c := civilOfMs ms
  daysFromCivil y c.2.1 c.2.2 * dayMs + timeOfDayMs ms

/-- Convenience constructor for concrete instants: `inst y mo d h mi` is the
instant of the civil datetime `y-mo-d h:mi` (month 1..12). -/
def inst (y mo d h mi : Int) : Int := msOfYMD y (mo - 1) d h mi

/-! ## `parseFacebookTimestamp` (src/unnamed/part_012)

Each regex of the source is embedded as a matcher over `List Char`. The
character classes `\d`, `\s`, `\w` are pairwise disjoint, so the greedy
maximal-munch runs below coincide with the backtracking regex semantics. -/

/-- Outcome of the JavaScript property read `monthMap[month]`: an own
property (a month index), a member inherited from `Object.prototype` (a
function or object, which is not `undefined` and so passes the source's
`monthIndex !== undefined` guard), or an absent key, `undefined`. -/
inductive MonthVal where
  | idx : Nat → MonthVal
  | inherited : MonthVal
  | absentKey : MonthVal
  deriving DecidableEq, Repr

/-- The property names every object literal inherits from
`Object.prototype`; reading any of them with bracket notation yields a
non-`undefined` value. -/
def protoKeys : List (List Char) :=
  ["constructor".data, "hasOwnProperty".data, "isPrototypeOf".data,
   "propertyIsEnumerable".data, "toLocaleString".data, "toString".data,
   "valueOf".data, "__proto__".data, "__defineGetter__".data,
   "__defineSetter__".data, "__lookupGetter__".data, "__lookupSetter__".data]

/-- The property read `monthMap[month]` of `parseFacebookTimestamp`:
case-sensitive own keys January..December (0-based indices), then the
`Object.prototype` members, else `undefined`. -/
def monthIdx (w : List Char) : MonthVal :=
  if w = "January".data then .idx 0
  else if w = "February".data then .idx 1
  else if w = "March".data then .idx 2
  else if w = "April".data then .idx 3
  else if w = "May".data then .idx 4
  else if w = "June".data then .idx 5
  else if w = "July".data then .idx 6
  else if w = "August".data then .idx 7
  else if w = "September".data then .idx 8
  else if w = "October".data then .idx 9
  else if w = "November".data then .idx 10
  else if w = "December".data then .idx 11
  else if w ∈ protoKeys then .inherited
  else .absentKey

/-- The weekday alternation of the full-date regex. -/
def weekdays : List (List Char) :=
  ["Sunday".data, "Monday".data, "Tuesday".data, "Wednesday".data,
   "Thursday".data, "Friday".data, "Saturday".data]

/-- Tail `(\d+):(\d+)$`: hour and minute, then end of input. -/
def hmEnd (s : List Char) : Option (Nat × Nat) :=
  match takeDigits s with
  | some (hh, r1) =>
    match r1 with
    | ':' :: r2 =>
      match takeDigits r2 with
      | some (mi, r3) => if r3 = [] then some (hh, mi) else none
      | none => none
    | _ => none
  | none => none

/-- The case-insensitive literal `at` of the `/i`-flagged full-date regex. -/
def stripAtCI (s : List Char) : Option (List Char) :=
  match s with
  | c1 :: c2 :: r => if ciEq 'a' c1 && ciEq 't' c2 then some r else none
  | _ => none

/-- Regex 1: `/^(?:Sunday|...|Saturday)\s+(\d+)\s+(\w+)\s+(\d{4})\s+at\s+(\d+):(\d+)$/i`,
capturing `(day, month word, year, hour, minute)`. -/
def fullDateMatch (s : List Char) : Option (Nat × List Char × Nat × Nat × Nat) :=
  match firstStripCI weekdays s with
  | none => none
  | some r0 =>
    match takeWs r0 with
    | none => none
    | some r1 =>
      match takeDigits r1 with
      | none => none
      | some (d, r2) =>
        match takeWs r2 with
        | none => none
        | some r3 =>
          match takeWord r3 with
          | none => none
          | some (w, r4) =>
            match takeWs r4 with
            | none => none
            | some r5 =>
              match take4Digits r5 with
              | none => none
              | some (y, r6) =>
                match takeWs r6 with
                | none => none
                | some r7 =>
                  match stripAtCI r7 with
                  | none => none
                  | some r8 =>
                    match takeWs r8 with
                    | none => none
                    | some r9 =>
                      match hmEnd r9 with
                      | none => none
                      | some (hh, mi) => some (d, w, y, hh, mi)

/-- Regex 2: `/^(\d+)m$/` (minutes ago). -/
def minutesMatch (s : List Char) : Option Nat :=
  match takeDigits s with
  | some (n, r) => if r = ['m'] then some n else none
  | none => none

/-- Regex 3: `/^(\d+)h$/` (hours ago). -/
def hoursMatch (s : List Char) : Option Nat :=
  match takeDigits s with
  | some (n, r) => if r = ['h'] then some n else none
  | none => none

/-- Regex 4: `/^(\d+)d$/` (days ago). -/
def daysMatch (s : List Char) : Option Nat :=
  match takeDigits s with
  | some (n, r) => if r = ['d'] then some n else none
  | none => none

/-- Regex 5: `/^Yesterday\s+at\s+(\d+):(\d+)$/` (case-sensitive). -/
def yesterdayMatch (s : List Char) : Option (Nat × Nat) :=
  match stripLit "Yesterday".data s with
  | none => none
  | some r1 =>
    match takeWs r1 with
    | none => none
    | some r2 =>
      match r2 with
      | 'a' :: 't' :: r3 =>
        match takeWs r3 with
        | none => none
        | some r4 => hmEnd r4
      | _ => none

/-- Regex 6: `/^(\d+)\s+(\w+)\s+at\s+(\d+):(\d+)$/` — day, month word, time,
no year. -/
def dateTimeMatch (s : List Char) : Option (Nat × List Char × Nat × Nat) :=
  match takeDigits s with
  | none => none
  | some (d, r1) =>
    match takeWs r1 with
    | none => none
    | some r2 =>
      match takeWord r2 with
      | none => none
      | some (w, r3) =>
        match takeWs r3 with
        | none => none
        | some r4 =>
          match r4 with
          | 'a' :: 't' :: r5 =>
            match takeWs r5 with
            | none => none
            | some r6 =>
              match hmEnd r6 with
              | none => none
              | some (hh, mi) => some (d, w, hh, mi)
          | _ => none

/-- Regex 7: `/^(\d+)\s+(\w+)\s+(\d{4})\s+at\s+(\d+):(\d+)$/` — explicit year
and time. -/
def dateYearTimeMatch (s : List Char) : Option (Nat × List Char × Nat × Nat × Nat) :=
  match takeDigits s with
  | none => none
  | some (d, r1) =>
    match takeWs r1 with
    | none => none
    | some r2 =>
      match takeWord r2 with
      | none => none
      | some (w, r3) =>
        match takeWs r3 with
        | none => none
        | some r4 =>
          match take4Digits r4 with
          | none => none
          | some (y, r5) =>
            match takeWs r5 with
            | none => none
            | some r6 =>
              match r6 with
              | 'a' :: 't' :: r7 =>
                match takeWs r7 with
                | none => none
                | some r8 =>
                  match hmEnd r8 with
                  | none => none
                  | some (hh, mi) => some (d, w, y, hh, mi)
              | _ => none

/-- Regex 8: `/^(\d+)\s+(\w+)\s+(\d{4})$/` — date with year, no time. -/
def dateYearMatch (s : List Char) : Option (Nat × List Char × Nat) :=
  match takeDigits s with
  | none => none
  | some (d, r1) =>
    match takeWs r1 with
    | none => none
    | some r2 =>
      match takeWord r2 with
      | none => none
      | some (w, r3) =>
        match takeWs r3 with
        | none => none
        | some r4 =>
          match take4Digits r4 with
          | none => none
          | some (y, r5) => if r5 = [] then some (d, w, y) else none

/-- The `"DD Month at HH:MM"` branch: build the date in `now`'s year and,
when it lies strictly in the future, move it back one year with
`setFullYear(year - 1)`. -/
def dateNoYear (now : Int) (m d hh mi : Int) : Int :=
  let y := yearOfMs now
  let cand := msOfYMD (adjY y) m d hh mi
  if now < cand then setYearMs cand (y - 1) else cand

/-- The `"Yesterday at HH:MM"` branch: copy `now`, step the calendar date back
one day, set the time of day. -/
def yesterdayMs (now : Int) (hh mi : Int) : Int :=
  let c := civilOfMs now
  daysFromCivil c.1 c.2.1 (c.2.2 - 1) * dayMs + hh * 3600000 + mi * 60000

/-- First-defined-wins chaining of the parser branches. -/
def orO {α : Type} (a b : Option α) : Option α :=
  match a with
  | some v => some v
  | none => b

/-- Branch 1 result: full date with weekday. An own month key gives the
instant; an `Object.prototype` member passes the `!== undefined` guard and
`new Date(year, monthIndex, ...)` coerces it to NaN, an Invalid Date
(`some none`); `undefined` falls through (`none`). -/
def bFull (s : List Char) : Option (Option Int) :=
  match fullDateMatch s with
  | some (d, w, y, hh, mi) =>
    match monthIdx w with
    | .idx m => some (some (msOfYMD (adjY (y : Int)) m d hh mi))
    | .inherited => some none
    | .absentKey => none
  | none => none

/-- Branch 2 result: `now - N` minutes. -/
def bMin (s : List Char) (now : Int) : Option (Option Int) :=
  match minutesMatch s with
  | some n => some (some (now - (n : Int) * 60000))
  | none => none

/-- Branch 3 result: `now - N` hours. -/
def bHour (s : List Char) (now : Int) : Option (Option Int) :=
  match hoursMatch s with
  | some n => some (some (now - (n : Int) * 3600000))
  | none => none

/-- Branch 4 result: `now - N` days (of 24 hours). -/
def bDay (s : List Char) (now : Int) : Option (Option Int) :=
  match daysMatch s with
  | some n => some (some (now - (n : Int) * 86400000))
  | none => none

/-- Branch 5 result: yesterday at the given time. -/
def bYest (s : List Char) (now : Int) : Option (Option Int) :=
  match yesterdayMatch s with
  | some (hh, mi) => some (some (yesterdayMs now hh mi))
  | none => none

/-- Branch 6 result: no-year date resolved against `now`'s year. An
inherited month yields an Invalid Date; its NaN never compares greater than
`now`, so the rollback branch is not taken and the Invalid Date is
returned. -/
def bDT (s : List Char) (now : Int) : Option (Option Int) :=
  match dateTimeMatch s with
  | some (d, w, hh, mi) =>
    match monthIdx w with
    | .idx m => some (some (dateNoYear now m d hh mi))
    | .inherited => some none
    | .absentKey => none
  | none => none

/-- Branch 7 result: explicit year and time. -/
def bDYT (s : List Char) : Option (Option Int) :=
  match dateYearTimeMatch s with
  | some (d, w, y, hh, mi) =>
    match monthIdx w with
    | .idx m => some (some (msOfYMD (adjY (y : Int)) m d hh mi))
    | .inherited => some none
    | .absentKey => none
  | none => none

/-- Branch 8 result: explicit year, defaulting to noon. -/
def bDY (s : List Char) : Option (Option Int) :=
  match dateYearMatch s with
  | some (d, w, y) =>
    match monthIdx w with
    | .idx m => some (some (msOfYMD (adjY (y : Int)) m d 12 0))
    | .inherited => some none
    | .absentKey => none
  | none => none

/-- Branch 9 result: `"Recently"`, case-insensitively, means one minute ago. -/
def bRec (s : List Char) (now : Int) : Option (Option Int) :=
  if lowerL s = "recently".data then some (some (now - 60000)) else none

/-- `parseFacebookTimestamp` over a character list: the nine recognised
grammar forms in source order, then the `new Date(0)` epoch sentinel. The
result is the returned `Date`'s time value; `none` is the NaN of an Invalid
Date. -/
def parseTS (s : List Char) (now : Int) : Option Int :=
  (orO (bFull s) (orO (bMin s now) (orO (bHour s now) (orO (bDay s now)
    (orO (bYest s now) (orO (bDT s now) (orO (bDYT s) (orO (bDY s)
      (bRec s now))))))))).getD (some 0)

/-- `parseFacebookTimestamp` of src/unnamed/part_012, with the implicit
`new Date()` made an explicit `now` instant. -/
def parseFacebookTimestamp (ts : String) (now : Int) : Option Int :=
  parseTS ts.data now

/-! ## Query-endpoint parameter handling (src/unnamed/part_012, handler)

`limit` and `offset` are raw query-string parameters; an absent parameter is
`none` (JS `undefined`, for which `parseInt` yields NaN). -/

/-- `Math.min(Math.max(parseInt(req.query.limit) || 100, 1), 1000)`.
Note `||` replaces both NaN and `0` by the default. -/
def effLimit (o : Option String) : Int :=
  let p := match o with
    | none => none
    | some s => jsParseIntL s.data
  let v : Int := match p with
    | none => 100
    | some v => if v = 0 then 100 else v
  min (max v 1) 1000

/-- `Math.max(parseInt(req.query.offset) || 0, 0)`. -/
def effOffset (o : Option String) : Int :=
  let p := match o with
    | none => none
    | some s => jsParseIntL s.data
  let v : Int := match p with
    | none => 0
    | some v => v
  max v 0

/-! ## Data model -/

/-- One row of the `posts` table (the columns this core reads). -/
structure Post where
  post_id : String
  title : String
  text : String
  url : String
  timestamp : String
  group_name : String
  group_url : String
  scraped_at : Int
  notified : Bool
  category : Option String
  location : Option String
  deriving DecidableEq, Repr

/-! ## Substring matching (SQL `ILIKE '%p%'`, JS `includes`) -/

/-- Is `p` a (contiguous) leading segment of `s`? -/
def leadsWith : List Char → List Char → Bool
  | [], _ => true
  | _ :: _, [] => false
  | p :: pt, c :: ct => p = c && leadsWith pt ct

/-- Does `hay` contain `needle` as a contiguous substring? -/
def containsSub (hay needle : List Char) : Bool :=
  leadsWith needle hay ||
    match hay with
    | [] => false
    | _ :: t => containsSub t needle

/-- Case-insensitive substring containment, as `ILIKE '%p%'` and as
`a.toLowerCase().includes(b.toLowerCase())`. -/
def ciContainsS (hay pat : String) : Bool :=
  containsSub (lowerL hay.data) (lowerL pat.data)

/-- Is a query-string parameter JS-truthy (present and non-empty)? -/
def strTruthy : Option String → Bool
  | none => false
  | some s => !(s = "")

/-- The string carried by a parameter (`""` when absent). -/
def optStr (o : Option String) : String := o.getD ""

/-- The store-level filters of the query endpoint: group name ILIKE, title OR
text ILIKE for `search`, `notified = false` for `only_new`, location ILIKE.
Each filter applies only when its parameter is truthy. -/
def dbMatch (groupP searchP : Option String) (onlyNew : Bool)
    (locP : Option String) (p : Post) : Bool :=
  (!strTruthy groupP || ciContainsS p.group_name (optStr groupP)) &&
  (!strTruthy searchP ||
    (ciContainsS p.title (optStr searchP) || ciContainsS p.text (optStr searchP))) &&
  (!onlyNew || p.notified = false) &&
  (!strTruthy locP ||
    (match p.location with
     | some l => ciContainsS l (optStr locP)
     | none => false))

/-- The client-side category filter:
`post.category && post.category.toLowerCase().includes(categoryLower)`. -/
def catMatch (c : String) (p : Post) : Bool :=
  match p.category with
  | some pc => !(pc = "") && containsSub (lowerL pc.data) (lowerL c.data)
  | none => false

/-! ## Stable descending sort

JS `Array.prototype.sort` with comparator `dateB.getTime() - dateA.getTime()`
is, when every key is a valid instant, the stable sort putting larger keys
first; a stable sort for a total preorder is unique, so the insertion sort
below produces exactly the source's ordering. When some key is NaN (an
Invalid Date), the comparator's NaN result is mapped to `+0` by the
SortCompare step of ECMAScript, the comparison function becomes inconsistent
and the specification leaves the resulting order implementation-defined; the
definition below then fixes one conforming behaviour. -/

/-- `SortCompare(a, b) ≤ 0`: may `a` stay in front of `b`? A NaN comparator
value counts as `+0`, a tie. -/
def keyLe (ka kb : Option Int) : Bool :=
  match ka, kb with
  | some x, some y => decide (y ≤ x)
  | _, _ => true

/-- Insert `a` before the first element it may precede, preserving the order
of ties (stability: `a` is inserted in front of tied elements because it
occurred earlier in the input). -/
def insDesc (key : α → Option Int) (a : α) : List α → List α
  | [] => [a]
  | b :: t => if keyLe (key a) (key b) then a :: b :: t else b :: insDesc key a t

/-- Stable sort, descending by `key`. -/
def sortDesc (key : α → Option Int) : List α → List α
  | [] => []
  | x :: xs => insDesc key x (sortDesc key xs)

/-- Sort key of a post within one `handler` call: the parsed timestamp
(`none` when `parseFacebookTimestamp` yields an Invalid Date). -/
def tsKey (now : Int) (p : Post) : Option Int := parseTS p.timestamp.data now

/-! ## The query handler (src/unnamed/part_012, success path) -/

/-- The JSON body of a successful query response. -/
structure QueryResp where
  posts : List Post
  total : Nat
  limit : Int
  offset : Int
  deriving DecidableEq, Repr

/-- The candidate set of one query call: store rows passing the store-level
filters, then the client-side category filter. -/
def candidates (store : List Post) (groupP searchP onlyNewP catP locP : Option String) :
    List Post :=
  let fetched := store.filter (dbMatch groupP searchP (onlyNewP = some "true") locP)
  if strTruthy catP then fetched.filter (catMatch (optStr catP)) else fetched

/-- The query endpoint of src/unnamed/part_012 (success path): clamp the
pagination parameters, fetch all posts matching the filters, filter by
category client-side, sort everything by parsed timestamp descending, slice
`[offset, offset+limit)`, and report the sorted candidate count as `total`. -/
def queryHandler (store : List Post)
    (groupP searchP onlyNewP catP locP limP offP : Option String) (now : Int) :
    QueryResp :=
  let lim := effLimit limP
  let off := effOffset offP
  let sorted := sortDesc (tsKey now) (candidates store groupP searchP onlyNewP catP locP)
  { posts := (sorted.drop off.toNat).take lim.toNat
    total := sorted.length
    limit := lim
    offset := off }

/-! ## The single-post lookup handler (src/api/posts/[post_id].ts) -/

/-- The `post_id` dynamic path parameter as Vercel delivers it: absent, a
single string, or an array when supplied more than once. -/
inductive PathParam where
  | absent : PathParam
  | one : String → PathParam
  | many : List String → PathParam
  deriving DecidableEq, Repr

/-- Responses of the lookup handler. -/
inductive LookupResp where
  | badRequest : String → LookupResp
  | notFound : String → LookupResp
  | ok : Post → LookupResp
  deriving DecidableEq, Repr

/-- HTTP status of a lookup response. -/
def LookupResp.status : LookupResp → Nat
  | .badRequest _ => 400
  | .notFound _ => 404
  | .ok _ => 200

/-- The lookup handler: `!post_id || Array.isArray(post_id)` yields 400
before any store access; otherwise `.eq('post_id', id).single()`, whose
PGRST116 error (zero or several rows) yields 404, else 200 with the row. -/
def lookupHandler (store : List Post) (pp : PathParam) : LookupResp :=
  match pp with
  | .absent => .badRequest "Invalid post ID"
  | .many _ => .badRequest "Invalid post ID"
  | .one s =>
    if s = "" then .badRequest "Invalid post ID"
    else
      match store.filter (fun p => p.post_id = s) with
      | [p] => .ok p
      | _ => .notFound "Post not found"

/-! ## Keyword fallback classifier (getCategoryDisplay, src/unnamed/part_002) -/

/-- A keyword pattern: a plain substring, or `a.*b` (an occurrence of `a`
followed, with no line break between, by an occurrence of `b`). -/
inductive Pat where
  | sub : String → Pat
  | seq : String → String → Pat
  deriving DecidableEq, Repr

/-- Can `b` be found ahead without crossing a line break (regex `.*b`)? -/
def seqAfter (hay b : List Char) : Bool :=
  leadsWith b hay ||
    match hay with
    | [] => false
    | c :: t => !(c = '\n' || c = '\r') && seqAfter t b

/-- Regex `a.*b` as an unanchored match. -/
def seqMatch (hay a b : List Char) : Bool :=
  (leadsWith a hay && seqAfter (hay.drop a.length) b) ||
    match hay with
    | [] => false
    | _ :: t => seqMatch t a b

/-- Does a pattern match the content? -/
def patMatch (content : List Char) : Pat → Bool
  | .sub s => containsSub content s.data
  | .seq a b => seqMatch content a.data b.data

/-- The Transport/Moving keywords. -/
def transportKeywords : List String :=
  ["flytte", "bære", "transport", "frakte", "hente", "kjøre", "henger"]

/-- The Cleaning/Garden keywords. -/
def cleaningKeywords : List String :=
  ["vask", "rengjøring", "utvask", "hage", "klippe", "måke", "snø"]

/-- The ordered category rule table of `getCategoryDisplay`'s keyword
fallback, in source order. -/
def rules : List (List Pat × String) :=
  [(transportKeywords.map Pat.sub, "Transport / Moving"),
   (["male", "sparkle", "pusse", "oppussing", "renovere", "snekker", "gulv",
     "vegg", "fliser", "tapet"].map Pat.sub, "Painting / Renovation"),
   (cleaningKeywords.map Pat.sub, "Cleaning / Garden"),
   (["rørlegger", "rør", "avløp", "toalett", "dusj", "vann", "vvs"].map Pat.sub,
    "Plumbing"),
   (["elektriker", "strøm", "sikring", "lys", "stikkontakt", "kurs"].map Pat.sub,
    "Electrical"),
   ([Pat.sub "montere", Pat.sub "demontere", Pat.sub "ikea", Pat.sub "møbler",
     Pat.sub "skap", Pat.sub "seng", Pat.sub "hylle", Pat.seq "tv" "vegg"],
    "Assembly / Furniture"),
   ([Pat.sub "bil", Pat.sub "motor", Pat.sub "bremse", Pat.sub "dekk",
     Pat.sub "verksted", Pat.sub "mekaniker", Pat.seq "eu" "kontroll"],
    "Car Mechanic"),
   ([Pat.sub "pc", Pat.sub "data", Pat.sub "mobil", Pat.sub "skjerm",
     Pat.sub "printer", Pat.sub "wifi", Pat.sub "internett",
     Pat.seq "smart" "hjem"], "IT / Tech"),
   (["løfte", "bære", "tungt", "rive", "demoler", "rydde", "kaste"].map Pat.sub,
    "Manual Labor"),
   (["reparere", "fikse", "bytte", "ordne", "småjobb"].map Pat.sub,
    "Handyman / Misc")]

/-- First rule (in table order) with any matching pattern. -/
def firstRuleMatch : List (List Pat × String) → List Char → Option String
  | [], _ => none
  | (pats, name) :: rs, content =>
    if pats.any (patMatch content) then some name else firstRuleMatch rs content

/-- The lower-cased `title + ' ' + text` the fallback matches against. -/
def contentOf (title text : String) : List Char :=
  lowerL (title.data ++ ' ' :: text.data)

/-- The keyword fallback: first matching rule wins, else `"Other"`. -/
def fallbackCategory (title text : String) : String :=
  match firstRuleMatch rules (contentOf title text) with
  | some c => c
  | none => "Other"

/-- `getCategoryDisplay` (name component): a truthy AI category other than
`Other`/`General` is used as-is, otherwise the keyword fallback runs. -/
def getCategoryDisplayName (p : Post) : String :=
  match p.category with
  | some c => if !(c = "") && !(c = "Other") && !(c = "General") then c
              else fallbackCategory p.title p.text
  | none => fallbackCategory p.title p.text

/-! ## Concrete sample data used by witnesses -/

/-- A sample stored post. -/
def samplePost : Post :=
  { post_id := "p0", title := "flyttehjelp", text := "trenger hjelp"
    url := "https://example.org/0", timestamp := "2h"
    group_name := "Oslo jobs", group_url := "https://example.org/g"
    scraped_at := 0, notified := false, category := none, location := none }

/-- Sample post whose raw timestamp is `"2h"`. -/
def postA : Post := { samplePost with post_id := "a1", timestamp := "2h" }

/-- Sample post whose raw timestamp is `"Yesterday at 10:00"`. -/
def postB : Post := { samplePost with post_id := "a2", timestamp := "Yesterday at 10:00" }

/-- Sample post whose raw timestamp is `"5 March 2024 at 09:00"`. -/
def postC : Post := { samplePost with post_id := "a3", timestamp := "5 March 2024 at 09:00" }

/-- A three-post snapshot. -/
def demoStore : List Post := [postC, postA, postB]

/-- A fixed reference instant, 2024-03-10T12:00. -/
def nowRef : Int := inst 2024 3 10 12 0

/-- A post whose raw timestamp is date-shaped but has an `Object.prototype`
property name as its month token. -/
def poisonPost : Post :=
  { samplePost with post_id := "px", timestamp := "24 constructor at 08:42" }

/-- A snapshot containing the poisoned post between two ordinary posts. -/
def poisonStore : List Post := [postC, poisonPost, postA]

/-- A snapshot with 1001 identical matching posts. -/
def bigStore : List Post := List.replicate 1001 samplePost

/-! ## Properties of the stable sort -/

theorem length_insDesc (key : α → Option Int) (a : α) (l : List α) :
    (insDesc key a l).length = l.length + 1 := by
  induction l with
  | nil => rfl
  | cons b t ih =>
    simp only [insDesc]
    split
    · simp
    · simp [ih]

theorem length_sortDesc (key : α → Option Int) (l : List α) :
    (sortDesc key l).length = l.length := by
  induction l with
  | nil => rfl
  | cons x xs ih => simp [sortDesc, length_insDesc, ih]

theorem perm_insDesc (key : α → Option Int) (a : α) (l : List α) :
    (insDesc key a l).Perm (a :: l) := by
  induction l with
  | nil => simp [insDesc]
  | cons b t ih =>
    simp only [insDesc]
    split
    · exact List.Perm.refl _
    · exact (ih.cons b).trans (List.Perm.swap a b t)

theorem perm_sortDesc (key : α → Option Int) (l : List α) :
    (sortDesc key l).Perm l := by
  induction l with
  | nil => exact List.Perm.refl _
  | cons x xs ih => exact (perm_insDesc key x (sortDesc key xs)).trans (ih.cons x)

theorem mem_insDesc (key : α → Option Int) (a c : α) (l : List α) :
    c ∈ insDesc key a l ↔ c = a ∨ c ∈ l := by
  constructor
  · intro h
    have := (perm_insDesc key a l).mem_iff.mp h
    simpa using this
  · intro h
    apply (perm_insDesc key a l).mem_iff.mpr
    simpa using h

/-- On valid instants the stay-in-front relation is transitive. -/
theorem keyLe_trans {ka kb kc : Option Int} (ha : ka.isSome = true)
    (hb : kb.isSome = true) (hc : kc.isSome = true)
    (hab : keyLe ka kb = true) (hbc : keyLe kb kc = true) :
    keyLe ka kc = true := by
  obtain ⟨x, rfl⟩ := Option.isSome_iff_exists.mp ha
  obtain ⟨y, rfl⟩ := Option.isSome_iff_exists.mp hb
  obtain ⟨z, rfl⟩ := Option.isSome_iff_exists.mp hc
  simp only [keyLe, decide_eq_true_eq] at hab hbc ⊢
  omega

/-- The stay-in-front relation is total. -/
theorem keyLe_flip {ka kb : Option Int} (h : keyLe ka kb = false) :
    keyLe kb ka = true := by
  cases ka with
  | none => exact absurd h (by simp [keyLe])
  | some x =>
    cases kb with
    | none => exact absurd h (by simp [keyLe])
    | some y =>
      simp only [keyLe, decide_eq_false_iff_not] at h
      simp only [keyLe, decide_eq_true_eq]
      omega

theorem pairwise_insDesc_valid (key : α → Option Int) (a : α) (l : List α)
    (ha : (key a).isSome = true) (hl : ∀ x ∈ l, (key x).isSome = true)
    (h : l.Pairwise (fun x y => keyLe (key x) (key y) = true)) :
    (insDesc key a l).Pairwise (fun x y => keyLe (key x) (key y) = true) := by
  induction l with
  | nil => simp [insDesc]
  | cons b t ih =>
    have hb : (key b).isSome = true := hl b (by simp)
    have ht : ∀ x ∈ t, (key x).isSome = true := fun x hx => hl x (by simp [hx])
    simp only [insDesc]
    split
    · rename_i hba
      refine List.Pairwise.cons ?_ h
      intro x hx
      rcases List.mem_cons.mp hx with rfl | hxt
      · exact hba
      · exact keyLe_trans ha hb (ht x hxt) hba (List.rel_of_pairwise_cons h hxt)
    · rename_i hba
      have hab : keyLe (key b) (key a) = true :=
        keyLe_flip (Bool.eq_false_iff.mpr hba)
      refine List.Pairwise.cons ?_ (ih ht h.tail)
      intro x hx
      rcases (mem_insDesc key a x t).mp hx with rfl | hxt
      · exact hab
      · exact List.rel_of_pairwise_cons h hxt

theorem pairwise_sortDesc_valid (key : α → Option Int) (l : List α)
    (hl : ∀ x ∈ l, (key x).isSome = true) :
    (sortDesc key l).Pairwise (fun x y => keyLe (key x) (key y) = true) := by
  induction l with
  | nil => simp [sortDesc]
  | cons x xs ih =>
    refine pairwise_insDesc_valid key x (sortDesc key xs) (hl x (by simp)) ?_
      (ih (fun y hy => hl y (by simp [hy])))
    intro y hy
    exact hl y (by simp [(perm_sortDesc key xs).mem_iff.mp hy])

/-- When every candidate key is a valid instant, the query response is the
slice of the descending-sorted candidate set and `total` is the candidate
count; with an Invalid-Date key present the comparison function is
inconsistent and ECMAScript leaves the order implementation-defined, which
is why this development lemma carries the validity hypothesis. -/
theorem query_sorted_slice_of_valid_keys (store : List Post)
    (groupP searchP onlyNewP catP locP limP offP : Option String) (now : Int)
    (hvalid : ∀ p ∈ candidates store groupP searchP onlyNewP catP locP,
      (tsKey now p).isSome = true) :
    let cand := candidates store groupP searchP onlyNewP catP locP
    let sorted := sortDesc (tsKey now) cand
    let resp := queryHandler store groupP searchP onlyNewP catP locP limP offP now
    resp.posts = (sorted.drop (effOffset offP).toNat).take (effLimit limP).toNat ∧
    resp.total = cand.length ∧
    sorted.Perm cand ∧
    sorted.Pairwise (fun a b => keyLe (tsKey now a) (tsKey now b) = true) := by
  refine ⟨rfl, ?_, perm_sortDesc _ _, pairwise_sortDesc_valid _ _ hvalid⟩
  simp [queryHandler, length_sortDesc]

/-- C1 — code-bug evidence at the failing input. In the poisoned snapshot
the post `"24 constructor at 08:42"` gets the NaN sort key (`none`): the
inherited `monthMap` member passes the `!== undefined` guard and builds an
Invalid Date. The comparator then ties that post with both neighbours
(`keyLe` both ways) although the neighbours' parsed instants differ
strictly, so the comparison function is inconsistent and the program's
result order is implementation-defined rather than descending by parsed
instant as the claim requires; `total` still equals the candidate count. -/
theorem query_comparator_nan_at_poison :
    tsKey nowRef poisonPost = none ∧
    tsKey nowRef postA = some (inst 2024 3 10 10 0) ∧
    tsKey nowRef postC = some (inst 2024 3 5 9 0) ∧
    keyLe (tsKey nowRef poisonPost) (tsKey nowRef postA) = true ∧
    keyLe (tsKey nowRef postA) (tsKey nowRef poisonPost) = true ∧
    keyLe (tsKey nowRef poisonPost) (tsKey nowRef postC) = true ∧
    keyLe (tsKey nowRef postC) (tsKey nowRef poisonPost) = true ∧
    keyLe (tsKey nowRef postC) (tsKey nowRef postA) = false ∧
    (queryHandler poisonStore none none none none none none none nowRef).total
      = 3 := by
  decide

/-! ## Pagination parameter claims -/

/-- C7 — The effective limit always lies in [1, 1000] and the effective
offset is at least 0; an absent or non-numeric parameter gets its default
(100 resp. 0); out-of-range values are clamped to the bounds; and the query
handler processes every request with the clamped values rather than
rejecting it. -/
theorem pagination_params_clamped (limP offP : Option String) :
    (1 ≤ effLimit limP ∧ effLimit limP ≤ 1000 ∧ 0 ≤ effOffset offP) ∧
    (effLimit none = 100 ∧ effOffset none = 0) ∧
    (∀ s, jsParseIntL s.data = none →
      effLimit (some s) = 100 ∧ effOffset (some s) = 0) ∧
    (∀ s v, jsParseIntL s.data = some v → 1000 < v → effLimit (some s) = 1000) ∧
    (∀ s v, jsParseIntL s.data = some v → v < 0 →
      effLimit (some s) = 1 ∧ effOffset (some s) = 0) ∧
    (∀ store groupP searchP onlyNewP catP locP now,
      (queryHandler store groupP searchP onlyNewP catP locP limP offP now).limit
        = effLimit limP ∧
      (queryHandler store groupP searchP onlyNewP catP locP limP offP now).offset
        = effOffset offP) := by
  refine ⟨⟨?_, ?_, ?_⟩, ⟨by decide, by decide⟩, ?_, ?_, ?_, fun _ _ _ _ _ _ _ => ⟨rfl, rfl⟩⟩
  · exact le_min (le_max_right _ _) (by norm_num)
  · exact min_le_right _ _
  · exact le_max_right _ _
  · intro s h
    simp [effLimit, effOffset, h]
  · intro s v h hv
    have h1 : (1 : Int) ≤ v := by omega
    simp only [effLimit, h]
    rw [if_neg (by omega)]
    rw [max_eq_left h1, min_eq_right (by omega)]
  · intro s v h hv
    constructor
    · simp only [effLimit, h]
      rw [if_neg (by omega)]
      rw [max_eq_right (by omega)]
      decide
    · simp only [effOffset, h]
      rw [max_eq_right (by omega)]

/-- Witness for C7 at concrete parameters. -/
theorem pagination_params_clamped_witness :
    effLimit (some "5000") = 1000 ∧ effLimit (some "abc") = 100 ∧
    effLimit (some "-3") = 1 ∧ effOffset (some "-3") = 0 :=
  ⟨(pagination_params_clamped (some "5000") none).2.2.2.1 "5000" 5000 (by decide)
      (by decide),
   ((pagination_params_clamped (some "abc") none).2.2.1 "abc" (by decide)).1,
   ((pagination_params_clamped (some "-3") none).2.2.2.2.1 "-3" (-3) (by decide)
      (by decide)).1,
   ((pagination_params_clamped none (some "-3")).2.2.2.2.1 "-3" (-3) (by decide)
      (by decide)).2⟩

/-- C9 — A limit parameter parsing to exactly 0 is replaced by the default
100 before clamping (same result as an absent parameter), while strictly
negative parsed limits are clamped to 1. -/
theorem limit_zero_treated_as_absent :
    (∀ s, jsParseIntL s.data = some 0 →
      effLimit (some s) = 100 ∧ effLimit (some s) = effLimit none) ∧
    (∀ s v, jsParseIntL s.data = some v → v < 0 → effLimit (some s) = 1) := by
  constructor
  · intro s h
    constructor <;> simp [effLimit, h]
  · intro s v h hv
    simp only [effLimit, h]
    rw [if_neg (by omega)]
    rw [max_eq_right (by omega)]
    decide

/-- Witness for C9: the string "0" yields limit 100; "-7" yields limit 1. -/
theorem limit_zero_treated_as_absent_witness :
    effLimit (some "0") = 100 ∧ effLimit (some "-7") = 1 :=
  ⟨(limit_zero_treated_as_absent.1 "0" (by decide)).1,
   limit_zero_treated_as_absent.2 "-7" (-7) (by decide) (by decide)⟩

/-! ## Lookup-endpoint claims -/

/-- C10 — A missing or repeated (array-valued) post_id path parameter yields
HTTP 400 "Invalid post ID" for every store alike (so no store access can
influence the response), and a 400 response is distinct from every 404
not-found response. -/
theorem lookup_invalid_param_is_400 (store : List Post) (xs : List String) :
    lookupHandler store .absent = .badRequest "Invalid post ID" ∧
    lookupHandler store (.many xs) = .badRequest "Invalid post ID" ∧
    (lookupHandler store .absent).status = 400 ∧
    (lookupHandler store (.many xs)).status = 400 ∧
    (∀ e1 e2, LookupResp.badRequest e1 ≠ LookupResp.notFound e2) :=
  ⟨rfl, rfl, rfl, rfl, fun _ _ h => LookupResp.noConfusion h⟩

/-- C8 — With a well-formed post_id, the lookup returns 404 when no record
matches, and the full matching record with 200 when one does; and the query
endpoint, in contrast, reports an empty candidate set as an ordinary
response with no posts and total 0, not as an error. -/
theorem lookup_not_found_vs_query_empty (store : List Post) (pid : String)
    (hpid : pid ≠ "") :
    (store.filter (fun p => p.post_id = pid) = [] →
      lookupHandler store (.one pid) = .notFound "Post not found" ∧
      (lookupHandler store (.one pid)).status = 404) ∧
    (∀ p, store.filter (fun p => p.post_id = pid) = [p] →
      lookupHandler store (.one pid) = .ok p ∧
      (lookupHandler store (.one pid)).status = 200) ∧
    (∀ groupP searchP onlyNewP catP locP limP offP now,
      candidates store groupP searchP onlyNewP catP locP = [] →
      (queryHandler store groupP searchP onlyNewP catP locP limP offP now).posts = [] ∧
      (queryHandler store groupP searchP onlyNewP catP locP limP offP now).total = 0) := by
  refine ⟨?_, ?_, ?_⟩
  · intro h
    constructor <;> simp [lookupHandler, hpid, h, LookupResp.status]
  · intro p h
    constructor <;> simp [lookupHandler, hpid, h, LookupResp.status]
  · intro groupP searchP onlyNewP catP locP limP offP now h
    constructor <;> simp [queryHandler, h, sortDesc]

/-- Witness for C8: a miss returns 404, a hit returns the record. -/
theorem lookup_not_found_vs_query_empty_witness :
    lookupHandler demoStore (.one "missing") = .notFound "Post not found" ∧
    lookupHandler demoStore (.one "a2") = .ok postB :=
  ⟨((lookup_not_found_vs_query_empty demoStore "missing" (by decide)).1
      (by decide)).1,
   ((lookup_not_found_vs_query_empty demoStore "a2" (by decide)).2.1 postB
      (by decide)).1⟩

/-! ## Keyword-fallback classifier claim -/

/-- C5 — The keyword fallback evaluates its rules in the fixed canonical
order (Transport/Moving first, then Painting/Renovation, Cleaning/Garden,
Plumbing, Electrical, Assembly/Furniture, Car Mechanic, IT/Tech, Manual
Labor, Handyman/Misc, else Other), first match winning: whenever the
lower-cased title+text contains both a Transport keyword and a Cleaning
keyword, the category is Transport / Moving, regardless of keyword order in
the text. -/
theorem transport_beats_cleaning (title text : String) :
    rules.map Prod.snd =
      ["Transport / Moving", "Painting / Renovation", "Cleaning / Garden",
       "Plumbing", "Electrical", "Assembly / Furniture", "Car Mechanic",
       "IT / Tech", "Manual Labor", "Handyman / Misc"] ∧
    (transportKeywords.any
        (fun k => containsSub (contentOf title text) k.data) = true →
      cleaningKeywords.any
        (fun k => containsSub (contentOf title text) k.data) = true →
      fallbackCategory title text = "Transport / Moving") := by
  constructor
  · rfl
  · intro ht _
    have hm : (transportKeywords.map Pat.sub).any
        (patMatch (contentOf title text)) = true := by
      simpa [List.any_map, Function.comp, patMatch] using ht
    simp only [fallbackCategory, rules, firstRuleMatch, hm, if_pos]

/-- Witness for C5, with the two keywords in either textual order. -/
theorem transport_beats_cleaning_witness :
    fallbackCategory "Trenger transport" "og vask av leiligheten"
      = "Transport / Moving" ∧
    fallbackCategory "hjelp med vask" "og litt transport etterpå"
      = "Transport / Moving" :=
  ⟨(transport_beats_cleaning "Trenger transport" "og vask av leiligheten").2
      (by decide) (by decide),
   (transport_beats_cleaning "hjelp med vask" "og litt transport etterpå").2
      (by decide) (by decide)⟩

/-! ## The unparseable-timestamp sentinel and its prototype-chain leak -/

/-- C2 — code-bug evidence at the failing inputs. Date-shaped strings whose
month token is an `Object.prototype` property name (`constructor`,
`toString`, `__proto__`, ...) pass the `monthIndex !== undefined` guard and
return an Invalid Date whose time value is NaN (`none`) — not the
`new Date(0)` epoch sentinel the claim (and the spec's fall-through policy)
requires — so such posts do not sort to the bottom. Genuinely unknown month
tokens and unrecognised formats do reach the sentinel. -/
theorem proto_month_skips_sentinel :
    parseFacebookTimestamp "24 constructor at 08:42" nowRef = none ∧
    parseFacebookTimestamp "24 toString at 08:42" nowRef = none ∧
    parseFacebookTimestamp "24 __proto__ at 08:42" nowRef = none ∧
    parseFacebookTimestamp "Sunday 1 valueOf 2026 at 14:08" nowRef = none ∧
    parseFacebookTimestamp "24 Januar at 08:42" nowRef = some 0 ∧
    parseFacebookTimestamp "complete garbage" nowRef = some 0 ∧
    parseFacebookTimestamp "" nowRef = some 0 := by
  decide

/-! ## Structure of successful matches -/

theorem takeDigits_head {s : List Char} {n : Nat} {r : List Char}
    (h : takeDigits s = some (n, r)) :
    ∃ c t, s = c :: t ∧ isDig c = true := by
  cases s with
  | nil => simp [takeDigits, digitRun] at h
  | cons c t =>
    refine ⟨c, t, rfl, ?_⟩
    by_contra hc
    simp only [Bool.not_eq_true] at hc
    simp [takeDigits, digitRun, hc] at h

theorem takeWs_head {s : List Char} {r : List Char}
    (h : takeWs s = some r) :
    ∃ c t, s = c :: t ∧ isWsC c = true := by
  cases s with
  | nil => simp [takeWs, wsRun] at h
  | cons c t =>
    refine ⟨c, t, rfl, ?_⟩
    by_contra hc
    simp only [Bool.not_eq_true] at hc
    simp [takeWs, wsRun, hc] at h

/-- Digits are unchanged by `toLowerCase`. -/
theorem digit_lower {c : Char} (h : isDig c = true) : jsLowerChar c = c := by
  have h48 : 48 ≤ c.toNat ∧ c.toNat ≤ 57 := by
    simpa [isDig] using h
  have hne1 : c ≠ 'Æ' := by rintro rfl; exact absurd h48.2 (by decide)
  have hne2 : c ≠ 'Ø' := by rintro rfl; exact absurd h48.2 (by decide)
  have hne3 : c ≠ 'Å' := by rintro rfl; exact absurd h48.2 (by decide)
  have hb : (decide (65 ≤ c.toNat) && decide (c.toNat ≤ 90)) = false := by
    simp only [Bool.and_eq_false_iff, decide_eq_false_iff_not]
    omega
  simp [jsLowerChar, hb, hne1, hne2, hne3]

/-- A letter never compares case-insensitively equal to a digit. -/
theorem ciEq_letter_digit {w c : Char} (hw : isDig (jsLowerChar w) = false)
    (hc : isDig c = true) : ciEq w c = false := by
  simp only [ciEq, digit_lower hc, decide_eq_false_iff_not]
  intro he
  rw [he, hc] at hw
  exact absurd hw (by decide)

/-- No weekday alternative can strip from a digit-initial string. -/
theorem firstStripCI_weekdays_digit {c : Char} {t : List Char}
    (hc : isDig c = true) : firstStripCI weekdays (c :: t) = none := by
  have hS : ciEq 'S' c = false := ciEq_letter_digit (by decide) hc
  have hM : ciEq 'M' c = false := ciEq_letter_digit (by decide) hc
  have hT : ciEq 'T' c = false := ciEq_letter_digit (by decide) hc
  have hW : ciEq 'W' c = false := ciEq_letter_digit (by decide) hc
  have hF : ciEq 'F' c = false := ciEq_letter_digit (by decide) hc
  simp [weekdays, firstStripCI, stripCI, hS, hM, hT, hW, hF]

/-- The whitespace after the digit run rules out the `Nc` relative forms. -/
theorem takeWs_rest_ne {r1 r2 : List Char} (h : takeWs r1 = some r2)
    (ch : Char) (hch : isWsC ch = false) : r1 ≠ [ch] := by
  obtain ⟨c, t, rfl, hc⟩ := takeWs_head h
  intro he
  injection he with he1 _
  rw [he1, hch] at hc
  exact absurd hc (by decide)

/-- The first two stages of a successful `dateTimeMatch`. -/
theorem dateTimeMatch_stages {s : List Char} {q : Nat × List Char × Nat × Nat}
    (h : dateTimeMatch s = some q) :
    ∃ d0 r1, takeDigits s = some (d0, r1) ∧ ∃ r2, takeWs r1 = some r2 := by
  unfold dateTimeMatch at h
  split at h
  · exact Option.noConfusion h
  · rename_i d0 r1 h1
    split at h
    · exact Option.noConfusion h
    · rename_i r2 h2
      exact ⟨d0, r1, h1, r2, h2⟩

/-- C3 — An input `"D Month at HH:MM"` (no year) with a recognised month is
resolved in `now`'s calendar year, and the year is decremented by exactly one
(via `setFullYear(year - 1)`) precisely when the instant computed with
`now`'s year lies strictly after `now`; a date already past in `now`'s year
gets no rollback. (The hypothesis `100 ≤ year` excludes the JS two-digit-year
constructor quirk, which cannot arise for any real clock value.) -/
theorem noyear_date_rollback (s : List Char) (now : Int) (d : Nat)
    (mon : List Char) (hh mi m : Nat)
    (hy : 100 ≤ yearOfMs now)
    (hm : dateTimeMatch s = some (d, mon, hh, mi))
    (hmi : monthIdx mon = .idx m) :
    parseTS s now =
      some (let y := yearOfMs now
            let cand := msOfYMD y m d hh mi
            if now < cand then setYearMs cand (y - 1) else cand) := by
  obtain ⟨d0, r1, h1, r2, h2⟩ := dateTimeMatch_stages hm
  obtain ⟨c, t, rfl, hc⟩ := takeDigits_head h1
  have hfull : bFull (c :: t) = none := by
    unfold bFull fullDateMatch
    rw [firstStripCI_weekdays_digit hc]
  have hmm : minutesMatch (c :: t) = none := by
    simp only [minutesMatch, h1]
    rw [if_neg (takeWs_rest_ne h2 'm' (by decide))]
  have hhm : hoursMatch (c :: t) = none := by
    simp only [hoursMatch, h1]
    rw [if_neg (takeWs_rest_ne h2 'h' (by decide))]
  have hdm : daysMatch (c :: t) = none := by
    simp only [daysMatch, h1]
    rw [if_neg (takeWs_rest_ne h2 'd' (by decide))]
  have hcY : c ≠ 'Y' := by
    rintro rfl
    exact absurd hc (by decide)
  have hym : yesterdayMatch (c :: t) = none := by
    have hstrip : stripLit "Yesterday".data (c :: t) = none := by
      show stripLit ('Y' :: "esterday".data) (c :: t) = none
      simp only [stripLit]
      rw [if_neg (fun h => hcY h.symm)]
    simp only [yesterdayMatch, hstrip]
  have hmin : bMin (c :: t) now = none := by simp only [bMin, hmm]
  have hhour : bHour (c :: t) now = none := by simp only [bHour, hhm]
  have hday : bDay (c :: t) now = none := by simp only [bDay, hdm]
  have hyest : bYest (c :: t) now = none := by simp only [bYest, hym]
  have hdt : bDT (c :: t) now = some (some (dateNoYear now m d hh mi)) := by
    simp only [bDT, hm, hmi]
  rw [parseTS, hfull, hmin, hhour, hday, hyest, hdt]
  simp only [orO, Option.getD_some]
  have hadj : adjY (yearOfMs now) = yearOfMs now := by
    unfold adjY
    rw [if_neg]
    simp only [Bool.and_eq_true, decide_eq_true_eq, not_and, not_le]
    omega
  simp only [dateNoYear, hadj]

/-- Witness for C3: with `now` = 2024-03-10T12:00, `"24 January at 08:42"`
has already occurred (no rollback, January 2024), while `"24 April at 08:42"`
would be in the future and rolls back to April 2023. -/
theorem noyear_date_rollback_witness :
    parseTS "24 January at 08:42".data (inst 2024 3 10 12 0)
      = some (inst 2024 1 24 8 42) ∧
    parseTS "24 April at 08:42".data (inst 2024 3 10 12 0)
      = some (inst 2023 4 24 8 42) := by
  constructor
  · have h := noyear_date_rollback "24 January at 08:42".data
      (inst 2024 3 10 12 0) 24 "January".data 8 42 0
      (by decide) (by decide) (by decide)
    rw [h]
    decide
  · have h := noyear_date_rollback "24 April at 08:42".data
      (inst 2024 3 10 12 0) 24 "April".data 8 42 3
      (by decide) (by decide) (by decide)
    rw [h]
    decide

/-! ## Run lemmas for the greedy character classes -/

theorem digitRun_stop {c : Char} (r : List Char) (h : isDig c = false) :
    digitRun (c :: r) = ([], c :: r) := by
  simp [digitRun, h]

theorem digitRun_append (ds r : List Char) (h : ds.all isDig = true) :
    digitRun (ds ++ r) = (ds ++ (digitRun r).1, (digitRun r).2) := by
  induction ds with
  | nil => simp
  | cons c t ih =>
    simp only [List.all_cons, Bool.and_eq_true] at h
    simp [digitRun, h.1, ih h.2]

theorem digitRun_all {ds : List Char} (h : ds.all isDig = true) :
    digitRun ds = (ds, []) := by
  have := digitRun_append ds [] h
  simpa [digitRun] using this

theorem wsRun_stop {c : Char} (r : List Char) (h : isWsC c = false) :
    wsRun (c :: r) = ([], c :: r) := by
  simp [wsRun, h]

theorem takeDigits_stop {c : Char} (r : List Char) (h : isDig c = false) :
    takeDigits (c :: r) = none := by
  simp [takeDigits, digitRun_stop r h]

theorem takeDigits_append {ds r : List Char} (hne : ds ≠ [])
    (hdig : ds.all isDig = true) (hr : digitRun r = ([], r)) :
    takeDigits (ds ++ r) = some (valDigits ds, r) := by
  unfold takeDigits
  rw [digitRun_append ds r hdig, hr]
  simp [hne]

theorem takeDigits_all {ds : List Char} (hne : ds ≠ [])
    (hdig : ds.all isDig = true) : takeDigits ds = some (valDigits ds, []) := by
  unfold takeDigits
  rw [digitRun_all hdig]
  simp [hne]

/-- Digits are not whitespace. -/
theorem isWsC_of_dig {c : Char} (h : isDig c = true) : isWsC c = false := by
  have h48 : 48 ≤ c.toNat ∧ c.toNat ≤ 57 := by simpa [isDig] using h
  have h1 : c ≠ ' ' := by rintro rfl; exact absurd h48.1 (by decide)
  have h2 : c ≠ '\t' := by rintro rfl; exact absurd h48.1 (by decide)
  have h3 : c ≠ '\n' := by rintro rfl; exact absurd h48.1 (by decide)
  have h4 : c ≠ '\r' := by rintro rfl; exact absurd h48.1 (by decide)
  simp [isWsC, h1, h2, h3, h4]

/-- Digits cannot begin any unicode lower image of a letter. -/
theorem not_digit_of_lower {c x : Char} (h : jsLowerChar c = x)
    (hx : isDig x = false) : isDig c = false := by
  by_contra hcd
  simp only [Bool.not_eq_false] at hcd
  rw [digit_lower hcd] at h
  rw [h] at hcd
  rw [hcd] at hx
  exact absurd hx (by decide)

/-- The weekday alternation fails whenever its head comparisons all fail. -/
theorem firstStripCI_weekdays_head {c : Char} (t : List Char)
    (h1 : ciEq 'S' c = false) (h2 : ciEq 'M' c = false)
    (h3 : ciEq 'T' c = false) (h4 : ciEq 'W' c = false)
    (h5 : ciEq 'F' c = false) :
    firstStripCI weekdays (c :: t) = none := by
  simp [weekdays, firstStripCI, stripCI, h1, h2, h3, h4, h5]

/-- `bFull` fails on digit-initial input. -/
theorem bFull_digit {c : Char} {t : List Char} (hc : isDig c = true) :
    bFull (c :: t) = none := by
  unfold bFull fullDateMatch
  rw [firstStripCI_weekdays_digit hc]

/-! ## The relative and special timestamp forms (claim C4 support) -/

theorem parse_Nm (now : Int) (ds : List Char) (hne : ds ≠ [])
    (hdig : ds.all isDig = true) :
    parseTS (ds ++ ['m']) now = some (now - (valDigits ds : Int) * 60000) := by
  obtain ⟨c, t, rfl⟩ := List.exists_cons_of_ne_nil hne
  have hc : isDig c = true := by
    simp only [List.all_cons, Bool.and_eq_true] at hdig
    exact hdig.1
  have htd : takeDigits ((c :: t) ++ ['m']) = some (valDigits (c :: t), ['m']) :=
    takeDigits_append hne hdig (digitRun_stop [] (by decide))
  have hfull : bFull ((c :: t) ++ ['m']) = none := bFull_digit hc
  have hb : bMin ((c :: t) ++ ['m']) now
      = some (some (now - (valDigits (c :: t) : Int) * 60000)) := by
    simp only [bMin, minutesMatch, htd]
    rw [if_pos trivial]
  rw [parseTS, hfull, hb]
  rfl

theorem parse_Nh (now : Int) (ds : List Char) (hne : ds ≠ [])
    (hdig : ds.all isDig = true) :
    parseTS (ds ++ ['h']) now = some (now - (valDigits ds : Int) * 3600000) := by
  obtain ⟨c, t, rfl⟩ := List.exists_cons_of_ne_nil hne
  have hc : isDig c = true := by
    simp only [List.all_cons, Bool.and_eq_true] at hdig
    exact hdig.1
  have htd : takeDigits ((c :: t) ++ ['h']) = some (valDigits (c :: t), ['h']) :=
    takeDigits_append hne hdig (digitRun_stop [] (by decide))
  have hfull : bFull ((c :: t) ++ ['h']) = none := bFull_digit hc
  have hm : bMin ((c :: t) ++ ['h']) now = none := by
    simp only [bMin, minutesMatch, htd]
    rw [if_neg (by decide)]
  have hb : bHour ((c :: t) ++ ['h']) now
      = some (some (now - (valDigits (c :: t) : Int) * 3600000)) := by
    simp only [bHour, hoursMatch, htd]
    rw [if_pos trivial]
  rw [parseTS, hfull, hm, hb]
  rfl

theorem parse_Nd (now : Int) (ds : List Char) (hne : ds ≠ [])
    (hdig : ds.all isDig = true) :
    parseTS (ds ++ ['d']) now = some (now - (valDigits ds : Int) * 86400000) := by
  obtain ⟨c, t, rfl⟩ := List.exists_cons_of_ne_nil hne
  have hc : isDig c = true := by
    simp only [List.all_cons, Bool.and_eq_true] at hdig
    exact hdig.1
  have htd : takeDigits ((c :: t) ++ ['d']) = some (valDigits (c :: t), ['d']) :=
    takeDigits_append hne hdig (digitRun_stop [] (by decide))
  have hfull : bFull ((c :: t) ++ ['d']) = none := bFull_digit hc
  have hm : bMin ((c :: t) ++ ['d']) now = none := by
    simp only [bMin, minutesMatch, htd]
    rw [if_neg (by decide)]
  have hh : bHour ((c :: t) ++ ['d']) now = none := by
    simp only [bHour, hoursMatch, htd]
    rw [if_neg (by decide)]
  have hb : bDay ((c :: t) ++ ['d']) now
      = some (some (now - (valDigits (c :: t) : Int) * 86400000)) := by
    simp only [bDay, daysMatch, htd]
    rw [if_pos trivial]
  rw [parseTS, hfull, hm, hh, hb]
  rfl

theorem parse_yesterday (now : Int) (hds mds : List Char)
    (hne1 : hds ≠ []) (hne2 : mds ≠ [])
    (hd1 : hds.all isDig = true) (hd2 : mds.all isDig = true) :
    parseTS ("Yesterday at ".data ++ (hds ++ ':' :: mds)) now
      = some (yesterdayMs now (valDigits hds) (valDigits mds)) := by
  obtain ⟨hc, ht, rfl⟩ := List.exists_cons_of_ne_nil hne1
  have hcd : isDig hc = true := by
    simp only [List.all_cons, Bool.and_eq_true] at hd1
    exact hd1.1
  have hshape : "Yesterday at ".data ++ ((hc :: ht) ++ ':' :: mds)
      = 'Y' :: 'e' :: 's' :: 't' :: 'e' :: 'r' :: 'd' :: 'a' :: 'y' :: ' ' ::
        'a' :: 't' :: ' ' :: ((hc :: ht) ++ ':' :: mds) := rfl
  rw [hshape]
  have hfull : bFull ('Y' :: 'e' :: 's' :: 't' :: 'e' :: 'r' :: 'd' :: 'a' ::
      'y' :: ' ' :: 'a' :: 't' :: ' ' :: ((hc :: ht) ++ ':' :: mds)) = none := by
    unfold bFull fullDateMatch
    rw [firstStripCI_weekdays_head _ (by decide) (by decide) (by decide)
        (by decide) (by decide)]
  have htds : takeDigits ('Y' :: 'e' :: 's' :: 't' :: 'e' :: 'r' :: 'd' :: 'a' ::
      'y' :: ' ' :: 'a' :: 't' :: ' ' :: ((hc :: ht) ++ ':' :: mds)) = none :=
    takeDigits_stop _ (by decide)
  have hm : bMin ('Y' :: 'e' :: 's' :: 't' :: 'e' :: 'r' :: 'd' :: 'a' ::
      'y' :: ' ' :: 'a' :: 't' :: ' ' :: ((hc :: ht) ++ ':' :: mds)) now = none := by
    simp only [bMin, minutesMatch, htds]
  have hh : bHour ('Y' :: 'e' :: 's' :: 't' :: 'e' :: 'r' :: 'd' :: 'a' ::
      'y' :: ' ' :: 'a' :: 't' :: ' ' :: ((hc :: ht) ++ ':' :: mds)) now = none := by
    simp only [bHour, hoursMatch, htds]
  have hd : bDay ('Y' :: 'e' :: 's' :: 't' :: 'e' :: 'r' :: 'd' :: 'a' ::
      'y' :: ' ' :: 'a' :: 't' :: ' ' :: ((hc :: ht) ++ ':' :: mds)) now = none := by
    simp only [bDay, daysMatch, htds]
  have hwX : wsRun ((hc :: ht) ++ ':' :: mds) = ([], (hc :: ht) ++ ':' :: mds) := by
    have : (hc :: ht) ++ ':' :: mds = hc :: (ht ++ ':' :: mds) := rfl
    rw [this]
    exact wsRun_stop _ (isWsC_of_dig hcd)
  have htdX : takeDigits ((hc :: ht) ++ ':' :: mds)
      = some (valDigits (hc :: ht), ':' :: mds) :=
    takeDigits_append hne1 hd1 (digitRun_stop mds (by decide))
  have htm : takeDigits mds = some (valDigits mds, []) := takeDigits_all hne2 hd2
  have hym : yesterdayMatch ('Y' :: 'e' :: 's' :: 't' :: 'e' :: 'r' :: 'd' :: 'a' ::
      'y' :: ' ' :: 'a' :: 't' :: ' ' :: ((hc :: ht) ++ ':' :: mds))
      = some (valDigits (hc :: ht), valDigits mds) := by
    have hstrip : stripLit "Yesterday".data ('Y' :: 'e' :: 's' :: 't' :: 'e' ::
        'r' :: 'd' :: 'a' :: 'y' :: ' ' :: 'a' :: 't' :: ' ' ::
        ((hc :: ht) ++ ':' :: mds))
        = some (' ' :: 'a' :: 't' :: ' ' :: ((hc :: ht) ++ ':' :: mds)) := rfl
    have hws1 : takeWs (' ' :: 'a' :: 't' :: ' ' :: ((hc :: ht) ++ ':' :: mds))
        = some ('a' :: 't' :: ' ' :: ((hc :: ht) ++ ':' :: mds)) := rfl
    have hws2 : takeWs (' ' :: ((hc :: ht) ++ ':' :: mds))
        = some ((hc :: ht) ++ ':' :: mds) := by
      unfold takeWs
      have hsp : isWsC ' ' = true := by decide
      have : wsRun (' ' :: ((hc :: ht) ++ ':' :: mds))
          = (' ' :: (wsRun ((hc :: ht) ++ ':' :: mds)).1,
             (wsRun ((hc :: ht) ++ ':' :: mds)).2) := by
        simp [wsRun, hsp]
      rw [this, hwX]
      simp
    have hhm : hmEnd ((hc :: ht) ++ ':' :: mds)
        = some (valDigits (hc :: ht), valDigits mds) := by
      simp only [hmEnd, htdX, htm]
      rw [if_pos trivial]
    simp only [yesterdayMatch, hstrip, hws1, hws2, hhm]
  have hb : bYest ('Y' :: 'e' :: 's' :: 't' :: 'e' :: 'r' :: 'd' :: 'a' ::
      'y' :: ' ' :: 'a' :: 't' :: ' ' :: ((hc :: ht) ++ ':' :: mds)) now
      = some (some (yesterdayMs now (valDigits (hc :: ht)) (valDigits mds))) := by
    simp only [bYest, hym]
  rw [parseTS, hfull, hm, hh, hd, hb]
  rfl

theorem parse_recently (now : Int) (s : List Char)
    (h : lowerL s = "recently".data) : parseTS s now = some (now - 60000) := by
  cases s with
  | nil => exact absurd h (by decide)
  | cons c t =>
    have hfc : jsLowerChar c = 'r' := by
      have h2 : jsLowerChar c :: lowerL t = 'r' :: "ecently".data := by
        simpa [lowerL] using h
      injection h2
    have hcd : isDig c = false := not_digit_of_lower hfc (by decide)
    have hcneY : c ≠ 'Y' := by
      rintro rfl
      exact absurd hfc (by decide)
    have hS : ciEq 'S' c = false := by unfold ciEq; rw [hfc]; decide
    have hM : ciEq 'M' c = false := by unfold ciEq; rw [hfc]; decide
    have hT : ciEq 'T' c = false := by unfold ciEq; rw [hfc]; decide
    have hW : ciEq 'W' c = false := by unfold ciEq; rw [hfc]; decide
    have hF : ciEq 'F' c = false := by unfold ciEq; rw [hfc]; decide
    have hfull : bFull (c :: t) = none := by
      unfold bFull fullDateMatch
      rw [firstStripCI_weekdays_head _ hS hM hT hW hF]
    have htds : takeDigits (c :: t) = none := takeDigits_stop _ hcd
    have hm : bMin (c :: t) now = none := by simp only [bMin, minutesMatch, htds]
    have hh : bHour (c :: t) now = none := by simp only [bHour, hoursMatch, htds]
    have hd : bDay (c :: t) now = none := by simp only [bDay, daysMatch, htds]
    have hyest : bYest (c :: t) now = none := by
      have hstrip : stripLit "Yesterday".data (c :: t) = none := by
        show stripLit ('Y' :: "esterday".data) (c :: t) = none
        simp only [stripLit]
        rw [if_neg (fun e => hcneY e.symm)]
      simp only [bYest, yesterdayMatch, hstrip]
    have hdt : bDT (c :: t) now = none := by
      simp only [bDT, dateTimeMatch, htds]
    have hdyt : bDYT (c :: t) = none := by
      simp only [bDYT, dateYearTimeMatch, htds]
    have hdy : bDY (c :: t) = none := by
      simp only [bDY, dateYearMatch, htds]
    have hrec : bRec (c :: t) now = some (some (now - 60000)) := by
      simp only [bRec, if_pos h]
    rw [parseTS, hfull, hm, hh, hd, hyest, hdt, hdyt, hdy, hrec]
    rfl

/-- C4 — The relative forms compute exact offsets from the reference instant:
`"Nm"` is `now - N` minutes, `"Nh"` is `now - N` hours, `"Nd"` is
`now - N·24` hours, `"Yesterday at HH:MM"` is `now`'s calendar date minus one
day at the given time, and `"Recently"` (case-insensitive) is `now` minus one
minute; in particular, for `now` = 2024-03-10T12:00, `"2h"` gives
2024-03-10T10:00 and `"Yesterday at 10:00"` gives 2024-03-09T10:00. -/
theorem relative_timestamp_offsets :
    (∀ (now : Int) (ds : List Char), ds ≠ [] → ds.all isDig = true →
      parseTS (ds ++ ['m']) now = some (now - (valDigits ds : Int) * 60000)) ∧
    (∀ (now : Int) (ds : List Char), ds ≠ [] → ds.all isDig = true →
      parseTS (ds ++ ['h']) now = some (now - (valDigits ds : Int) * 3600000)) ∧
    (∀ (now : Int) (ds : List Char), ds ≠ [] → ds.all isDig = true →
      parseTS (ds ++ ['d']) now = some (now - (valDigits ds : Int) * 86400000)) ∧
    (∀ (now : Int) (hds mds : List Char), hds ≠ [] → mds ≠ [] →
      hds.all isDig = true → mds.all isDig = true →
      parseTS ("Yesterday at ".data ++ (hds ++ ':' :: mds)) now
        = some (yesterdayMs now (valDigits hds) (valDigits mds))) ∧
    (∀ (now : Int) (s : List Char), lowerL s = "recently".data →
      parseTS s now = some (now - 60000)) ∧
    parseTS "2h".data (inst 2024 3 10 12 0) = some (inst 2024 3 10 10 0) ∧
    parseTS "Yesterday at 10:00".data (inst 2024 3 10 12 0)
      = some (inst 2024 3 9 10 0) :=
  ⟨parse_Nm, parse_Nh, parse_Nd, parse_yesterday, parse_recently,
   by decide, by decide⟩

/-- Witness for C4 at concrete inputs, one per quantified conjunct. -/
theorem relative_timestamp_offsets_witness :
    parseTS ("15".data ++ ['m']) 999999999 = some (999999999 - 15 * 60000) ∧
    parseTS ("2".data ++ ['h']) 999999999 = some (999999999 - 2 * 3600000) ∧
    parseTS ("3".data ++ ['d']) 999999999 = some (999999999 - 3 * 86400000) ∧
    parseTS ("Yesterday at ".data ++ ("10".data ++ ':' :: "00".data))
      (inst 2024 3 10 12 0) = some (yesterdayMs (inst 2024 3 10 12 0) 10 0) ∧
    parseTS "ReCently".data 777777777 = some (777777777 - 60000) :=
  ⟨relative_timestamp_offsets.1 999999999 "15".data (by decide) (by decide),
   relative_timestamp_offsets.2.1 999999999 "2".data (by decide) (by decide),
   relative_timestamp_offsets.2.2.1 999999999 "3".data (by decide) (by decide),
   relative_timestamp_offsets.2.2.2.1 (inst 2024 3 10 12 0) "10".data "00".data
     (by decide) (by decide) (by decide) (by decide),
   relative_timestamp_offsets.2.2.2.2.1 777777777 "ReCently".data (by decide)⟩

/-! ## Pagination-concatenation claim (C6) -/

set_option maxRecDepth 10000 in
/-- The padded numerals denote the expected integers. -/
theorem pad4_roundtrip : ∀ i, i ≤ 1001 → jsParseIntL (pad4 i).data = some (i : Int) := by
  decide

theorem take_succ_slice (l : List α) (n : Nat) :
    l.take (n + 1) = l.take n ++ (l.drop n).take 1 := by
  induction n generalizing l with
  | zero => cases l <;> simp
  | succ n ih =>
    cases l with
    | nil => simp
    | cons a t => simp [ih t]

/-- Concatenating the one-element slices at offsets `0..N-1` gives the first
`N` elements. -/
theorem join_slices (l : List α) (N : Nat) :
    ((List.range N).map (fun i => (l.drop i).take 1)).flatten = l.take N := by
  induction N with
  | zero => simp
  | succ n ih =>
    rw [List.range_succ, List.map_append, List.flatten_append, ih]
    simp [take_succ_slice l n]

/-- Sorting a constant list is the identity. -/
theorem sortDesc_replicate {α : Type} (key : α → Option Int) (n : Nat) (a : α) :
    sortDesc key (List.replicate n a) = List.replicate n a := by
  apply List.eq_replicate_iff.2
  constructor
  · rw [length_sortDesc, List.length_replicate]
  · intro b hb
    exact List.eq_of_mem_replicate ((perm_sortDesc key _).mem_iff.mp hb)

/-- With no filters, every stored post is a candidate. -/
theorem candidates_all (store : List Post) :
    candidates store none none none none none = store := by
  simp [candidates, dbMatch, strTruthy]

/-- C6 counterexample — on a snapshot of 1001 identical matching posts with no
filters, concatenating the `limit=1` calls at offsets `0..1000` yields 1001
posts, while the single `limit=1001` call is clamped to 1000 posts, so the
two are different. -/
theorem pagination_concat_counterexample :
    ¬ (((List.range 1001).map (fun i =>
          (queryHandler bigStore none none none none none
            (some "1") (some (pad4 i)) 0).posts)).flatten
        = (queryHandler bigStore none none none none none
            (some "1001") (some "0") 0).posts) := by
  intro h
  have hcand : candidates bigStore none none none none none = bigStore :=
    candidates_all _
  have hsort : sortDesc (tsKey 0) bigStore = bigStore := by
    unfold bigStore
    exact sortDesc_replicate _ _ _
  have hlim1 : effLimit (some "1") = 1 := by decide
  have hlimN : effLimit (some "1001") = 1000 := by decide
  have hoff0 : effOffset (some "0") = 0 := by decide
  have hmap : (List.range 1001).map (fun i =>
      (queryHandler bigStore none none none none none
        (some "1") (some (pad4 i)) 0).posts)
      = (List.range 1001).map (fun i => (bigStore.drop i).take 1) := by
    apply List.map_congr_left
    intro i hi
    have hiN : i < 1001 := List.mem_range.mp hi
    have hoffi : effOffset (some (pad4 i)) = (i : Int) := by
      simp only [effOffset, pad4_roundtrip i (Nat.le_of_lt hiN)]
      exact max_eq_left (Int.ofNat_nonneg i)
    simp only [queryHandler, hcand, hsort, hlim1, hoffi, Int.toNat_one,
      Int.toNat_ofNat]
  rw [hmap, join_slices] at h
  simp only [queryHandler, hcand, hsort, hlimN, hoff0, Int.toNat_zero,
    Int.toNat_ofNat, List.drop_zero] at h
  have hlen := congrArg List.length h
  simp only [bigStore, List.take_replicate, List.length_take,
    List.length_replicate] at hlen
  omega

/-- C6, amended — the pagination-concatenation identity holds whenever the
matching-post count `N` does not exceed the limit clamp bound 1000 (for
`N > 1000` the single call's limit is clamped and the identity fails):
for any fixed filters and snapshot whose candidate count is `N ≤ 1000`,
concatenating the `posts` of the `N` calls with `limit=1`, `offset=i`
(each parameter a numeral denoting its integer) equals the `posts` of the
single call with `limit=N`, `offset=0`. -/
theorem pagination_concat_aligned (store : List Post)
    (gP sP oP cP lP : Option String) (now : Int) (N : Nat)
    (lim1 limN : String) (offs : Nat → String)
    (h1 : jsParseIntL lim1.data = some 1)
    (hoffs : ∀ i, i < N → jsParseIntL (offs i).data = some (i : Int))
    (hN : jsParseIntL limN.data = some (N : Int))
    (hlen : (candidates store gP sP oP cP lP).length = N)
    (hbound : N ≤ 1000) :
    ((List.range N).map (fun i =>
      (queryHandler store gP sP oP cP lP (some lim1) (some (offs i)) now).posts)).flatten
    = (queryHandler store gP sP oP cP lP (some limN) (some "0") now).posts := by
  have hlim1 : effLimit (some lim1) = 1 := by simp [effLimit, h1]
  have hoff0 : effOffset (some "0") = 0 := by decide
  have hsortlen : (sortDesc (tsKey now) (candidates store gP sP oP cP lP)).length
      = N := by
    rw [length_sortDesc]
    exact hlen
  have hmap : (List.range N).map (fun i =>
      (queryHandler store gP sP oP cP lP (some lim1) (some (offs i)) now).posts)
      = (List.range N).map (fun i =>
        ((sortDesc (tsKey now) (candidates store gP sP oP cP lP)).drop i).take 1) := by
    apply List.map_congr_left
    intro i hi
    have hiN : i < N := List.mem_range.mp hi
    have hoffi : effOffset (some (offs i)) = (i : Int) := by
      simp only [effOffset, hoffs i hiN]
      exact max_eq_left (Int.ofNat_nonneg i)
    simp only [queryHandler, hlim1, hoffi, Int.toNat_one, Int.toNat_ofNat]
  rw [hmap, join_slices]
  by_cases h0 : N = 0
  · subst h0
    have hnil : sortDesc (tsKey now) (candidates store gP sP oP cP lP) = [] :=
      List.eq_nil_of_length_eq_zero hsortlen
    simp [queryHandler, hnil]
  · have hNlim : effLimit (some limN) = (N : Int) := by
      simp only [effLimit, hN]
      rw [if_neg (by exact_mod_cast h0)]
      rw [max_eq_left (by exact_mod_cast Nat.one_le_iff_ne_zero.mpr h0)]
      rw [min_eq_left (by exact_mod_cast hbound)]
    simp only [queryHandler, hNlim, hoff0, Int.toNat_zero, Int.toNat_ofNat,
      List.drop_zero]

/-- Witness for the amended C6 on the three-post snapshot. -/
theorem pagination_concat_aligned_witness :
    ((List.range 3).map (fun i =>
      (queryHandler demoStore none none none none none
        (some "1") (some (pad4 i)) (inst 2024 3 10 12 0)).posts)).flatten
    = (queryHandler demoStore none none none none none
        (some "3") (some "0") (inst 2024 3 10 12 0)).posts :=
  pagination_concat_aligned demoStore none none none none none
    (inst 2024 3 10 12 0) 3 "1" "3" (fun i => pad4 i)
    (by decide) (by decide) (by decide) (by decide) (by decide)

end WorkNotifier
